import Mathlib

/-!
# Model of the Valoris spreadsheet ingestion and analysis pipeline

A shallow embedding of the core of the `rhiday/valoris` repository:

* `src/utils/dataExtraction.ts` — field extraction and vendor grouping,
* `src/services/openai.ts` — CSV parsing, delimiter detection, European
  decimal conversion, the Excel-parse fallback decision, the analysis
  cache and the in-flight request de-duplication,
* `src/services/externalApiDemo.ts` — the two-stage n8n pipeline with
  local summary generation and mock-data fallback,
* `src/services/conversationData.ts` — the conversation store.

Modelling conventions:

* JavaScript numbers (IEEE doubles) are idealised as exact rationals `ℚ`.
  Decimal literals such as `0.08` are read as the exact rational `8/100`.
  `NaN` results of coercions are collapsed to `none` by the partial
  parsing functions; where the source immediately applies `|| 0`, the
  model uses `Option.getD 0`, which agrees with JavaScript (`NaN || 0`
  and `0 || 0` are both `0`).  Division by zero yields `0` in `ℚ` where
  JavaScript would yield `NaN`; no verified statement inspects such a
  value.
* JavaScript strings are Lean `String`s; character-level operations
  (`split`, `trim`, `replace`, `toLowerCase`) are implemented on the
  underlying character lists.  `toLowerCase` is modelled for ASCII,
  which is what the source's column names and vendor keys use.
* A spreadsheet row (`ExcelRow` in the source: an object mapping column
  labels to scalar cells) is an ordered association list; JavaScript
  object key iteration order is insertion order.
* `fetch`/network effects are abstracted into environment parameters
  holding each remote stage's outcome; `Math.random()` is abstracted
  into a stream of draws threaded through the computation.
-/

/-- A scalar spreadsheet cell: the source's `string | number` cell type
(`ExcelRow` values).  An absent column is `Option.none` at the lookup site. -/
inductive CellValue where
  | str (s : String)
  | num (q : ℚ)
deriving DecidableEq

/-- A raw spreadsheet row: ordered list of column-label/cell pairs,
modelling a JavaScript object with insertion-ordered keys. -/
abbrev ExcelRow := List (String × CellValue)

/-- JavaScript truthiness of a cell value: `""` and `0` are falsy. -/
def CellValue.truthy : CellValue → Bool
  | .str s => s != ""
  | .num q => q != 0

/-- ASCII lower-casing of one character, as `String.prototype.toLowerCase`
acts on the ASCII range used by the source's column names. -/
def jsCharLower (c : Char) : Char :=
  if 'A' ≤ c ∧ c ≤ 'Z' then Char.ofNat (c.toNat + 32) else c

/-- `s.toLowerCase()` (ASCII model). -/
def jsToLower (s : String) : String := String.mk (s.data.map jsCharLower)

/-- The whitespace class trimmed by `String.prototype.trim` (restricted to
the ASCII whitespace occurring in spreadsheet exports). -/
def jsWhitespace (c : Char) : Bool := c = ' ' || c = '\t' || c = '\n' || c = '\r'

/-- `s.trim()`. -/
def jsTrim (s : String) : String :=
  String.mk (((s.data.dropWhile jsWhitespace).reverse.dropWhile jsWhitespace).reverse)

/-- Does `pat` occur as a contiguous sublist? (`String.prototype.includes`.) -/
def subOccurs (pat : List Char) : List Char → Bool
  | [] => pat.isEmpty
  | c :: cs => pat.isPrefixOf (c :: cs) || subOccurs pat cs

/-- `s.includes(pat)`. -/
def jsIncludes (s pat : String) : Bool := subOccurs pat.data s.data

/-- Value of a digit string, most significant first. -/
def digitsToNat (ds : List Char) : ℕ := ds.foldl (fun n c => 10 * n + (c.toNat - '0'.toNat)) 0

/-- Value of a fractional digit string (the digits after a decimal point). -/
def fracToRat (ds : List Char) : ℚ := (digitsToNat ds : ℚ) / ((10 : ℚ) ^ ds.length)

/-- Unsigned decimal literal `digits[.digits]` covering the whole input;
`none` models `NaN`. -/
def parseDecCore (cs : List Char) : Option ℚ :=
  let ip := cs.takeWhile Char.isDigit
  let rest := cs.dropWhile Char.isDigit
  match rest with
  | [] => if ip.isEmpty then none else some (digitsToNat ip)
  | '.' :: tail =>
    let fp := tail.takeWhile Char.isDigit
    let rest2 := tail.dropWhile Char.isDigit
    if rest2.isEmpty && !(ip.isEmpty && fp.isEmpty) then
      some ((digitsToNat ip : ℚ) + fracToRat fp)
    else none
  | _ => none

/-- `Number(s)` for a string: trims, treats the empty string as `0`, parses a
signed decimal literal, and is `none` (`NaN`) otherwise.  (Exponent and hex
forms never reach this code path and are not modelled.) -/
def jsStringToNumber (s : String) : Option ℚ :=
  match (jsTrim s).data with
  | [] => some 0
  | '-' :: rest => (parseDecCore rest).map Neg.neg
  | '+' :: rest => parseDecCore rest
  | t => parseDecCore t

/-- `parseFloat(s)`: skips leading whitespace, reads an optional sign and the
longest decimal-literal prefix; `none` (`NaN`) when no digits are found. -/
def jsParseFloat (s : String) : Option ℚ :=
  let cs := s.data.dropWhile jsWhitespace
  let signed : ℚ × List Char :=
    match cs with
    | '-' :: r => (-1, r)
    | '+' :: r => (1, r)
    | _ => (1, cs)
  let ip := signed.2.takeWhile Char.isDigit
  let rest := signed.2.dropWhile Char.isDigit
  let fp :=
    match rest with
    | '.' :: tail => tail.takeWhile Char.isDigit
    | _ => []
  if ip.isEmpty && fp.isEmpty then none
  else some (signed.1 * ((digitsToNat ip : ℚ) + fracToRat fp))

/-- Fractional digit characters of `q` (with `0 ≤ q < 1`), up to the fuel
bound; exact whenever the expansion terminates. -/
def fracDigitList : ℕ → ℚ → List Char
  | 0, _ => []
  | n + 1, q =>
    if q = 0 then []
    else
      let d := (⌊q * 10⌋).toNat
      Char.ofNat ('0'.toNat + d) :: fracDigitList n (q * 10 - (d : ℚ))

/-- `String(q)` for a number.  JavaScript prints the shortest round-tripping
decimal of a double; the model prints the exact decimal expansion (truncated
at 20 fractional digits), which agrees on every value this code path receives
in the verified statements. -/
def jsRatToString (q : ℚ) : String :=
  let sgn := if q < 0 then "-" else ""
  let a := |q|
  let ipart := (⌊a⌋).toNat
  let frac := a - (ipart : ℚ)
  sgn ++ toString ipart ++ (if frac = 0 then "" else "." ++ String.mk (fracDigitList 20 frac))

/-- `String(v)` for a cell value. -/
def CellValue.jsToString : CellValue → String
  | .str s => s
  | .num q => jsRatToString q

/-- `Number(v)` for a cell value (`none` = `NaN`). -/
def jsNumber : CellValue → Option ℚ
  | .num q => some q
  | .str s => jsStringToNumber s

/-- `row[k]`: first binding of the column label `k` (`none` = `undefined`). -/
def rowGet (row : ExcelRow) (k : String) : Option CellValue :=
  (row.find? (fun p => p.1 == k)).map (·.2)

/-- Truthiness of a possibly-absent value (`undefined` is falsy). -/
def truthyOpt : Option CellValue → Bool
  | some v => v.truthy
  | none => false

/-- `String(o || '')`: the value's string form if truthy, else `""`. -/
def cvOrEmpty (o : Option CellValue) : String :=
  match o with
  | some v => if v.truthy then v.jsToString else ""
  | none => ""

/-- `String(o || d)` for a string default `d`. -/
def cvOrDefault (o : Option CellValue) (d : String) : String :=
  match o with
  | some v => if v.truthy then v.jsToString else d
  | none => d

/-! ## `src/utils/dataExtraction.ts` -/

/-- The normalized record shape produced by `normalizeExcelRow`
(`ExtractedData` in the source). -/
structure ExtractedData where
  vendor : String
  spend : ℚ
  category : String
  segment : String
deriving DecidableEq

/-- First cell among the given exact column labels whose value is truthy
(the `if (row.K) return …` chains of the extractors). -/
def firstTruthyKey (row : ExcelRow) : List String → Option CellValue
  | [] => none
  | k :: ks =>
    match rowGet row k with
    | some v => if v.truthy then some v else firstTruthyKey row ks
    | none => firstTruthyKey row ks

/-- Column labels whose lower-cased name contains one of the patterns
(`Object.keys(row).filter(key => key.toLowerCase().includes(p) || …)`). -/
def patternKeyCols (row : ExcelRow) (pats : List String) : List String :=
  (row.map (·.1)).filter (fun key => pats.any (fun p => jsIncludes (jsToLower key) p))

/-- `extractVendorName` from `dataExtraction.ts`: exact labels first, then the
first column whose name contains vendor/supplier/company. -/
def extractVendorName (row : ExcelRow) : String :=
  match firstTruthyKey row ["Supplier", "supplier", "vendor", "Vendor"] with
  | some v => jsTrim v.jsToString
  | none =>
    match patternKeyCols row ["vendor", "supplier", "company"] with
    | [] => ""
    | k :: _ => jsTrim (cvOrEmpty (rowGet row k))

/-- Strip every character other than digits, dots and commas
(`value.replace(/[^\d.,]/g, '')`). -/
def stripNonNumChars (s : String) : String :=
  String.mk (s.data.filter (fun c => c.isDigit || c = '.' || c = ','))

/-- Replace the first occurrence of `a` by `b` (`s.replace(a, b)` with a
single-character string pattern). -/
def replaceFirstChar (a b : Char) : List Char → List Char
  | [] => []
  | c :: cs => if c = a then b :: cs else c :: replaceFirstChar a b cs

/-- `s.replace(a, b)` at string level. -/
def jsReplaceFirst (a b : Char) (s : String) : String :=
  String.mk (replaceFirstChar a b s.data)

/-- `extractSpendAmount` from `dataExtraction.ts`: exact labels coerced with
`Number(v) || 0`, else the first spend/cost/amount-named column stripped to
numeric characters, first comma turned into a dot, and `parseFloat || 0`. -/
def extractSpendAmount (row : ExcelRow) : ℚ :=
  match firstTruthyKey row
      ["Total_Current_Cost", "Total Current Cost", "spend", "Spend", "cost", "Cost"] with
  | some v => (jsNumber v).getD 0
  | none =>
    match patternKeyCols row ["spend", "cost", "amount"] with
    | [] => 0
    | k :: _ =>
      let value := stripNonNumChars (cvOrEmpty (rowGet row k))
      (jsParseFloat (jsReplaceFirst ',' '.' value)).getD 0

/-- `extractCategory` from `dataExtraction.ts` (default `"Software"`). -/
def extractCategory (row : ExcelRow) : String :=
  match firstTruthyKey row ["category", "Category"] with
  | some v => jsTrim v.jsToString
  | none =>
    match patternKeyCols row ["category", "type"] with
    | [] => "Software"
    | k :: _ => jsTrim (cvOrDefault (rowGet row k) "Software")

/-- `extractSegment` from `dataExtraction.ts` (default `"IT"`). -/
def extractSegment (row : ExcelRow) : String :=
  match firstTruthyKey row ["segment", "Segment"] with
  | some v => jsTrim v.jsToString
  | none =>
    match patternKeyCols row ["segment", "department"] with
    | [] => "IT"
    | k :: _ => jsTrim (cvOrDefault (rowGet row k) "IT")

/-- `normalizeExcelRow` from `dataExtraction.ts`. -/
def normalizeExcelRow (row : ExcelRow) : ExtractedData :=
  { vendor := extractVendorName row
    spend := extractSpendAmount row
    category := extractCategory row
    segment := extractSegment row }

/-- The drop test of `groupByVendor`:
`if (!extracted.vendor || extracted.spend === 0) return`. -/
def droppedRec (r : ExtractedData) : Prop := r.vendor = "" ∨ r.spend = 0

instance : DecidablePred droppedRec := fun r => by unfold droppedRec; infer_instance

/-- The grouping key: `extracted.vendor.toLowerCase()`. -/
def vkey (r : ExtractedData) : String := jsToLower r.vendor

/-- One iteration of the `data.forEach` body of `groupByVendor`: the
accumulator is the `vendorMap` as an insertion-ordered association list,
and `existing.spend += extracted.spend` is an in-place update. -/
def groupStep (m : List ExtractedData) (r : ExtractedData) : List ExtractedData :=
  if droppedRec r then m
  else if vkey r ∈ m.map vkey then
    m.map (fun e => if vkey e = vkey r then { e with spend := e.spend + r.spend } else e)
  else m ++ [r]

/-- `groupByVendor`'s loop over already-normalized records, returning
`Array.from(vendorMap.values())` (insertion order). -/
def groupRecords (rs : List ExtractedData) : List ExtractedData :=
  rs.foldl groupStep []

/-- `groupByVendor` from `dataExtraction.ts`. -/
def groupByVendor (data : List ExcelRow) : List ExtractedData :=
  groupRecords (data.map normalizeExcelRow)

/-- Modelled from the spec: the total spend contributed to key `k` by the
non-dropped records of `rs` ("spend = sum of all contributing
NormalizedRecord spends"). -/
def contribSpend (k : String) (rs : List ExtractedData) : ℚ :=
  ((rs.filter (fun x => decide (¬ droppedRec x ∧ vkey x = k))).map (·.spend)).sum

/-- Modelled from the spec (§4.3): one entry per case-insensitively distinct
non-dropped vendor not already seen, in first-seen order; the first
occurrence fixes the spelling/category/segment and the entry's spend is the
sum of all contributing spends. -/
def groupSpec : List ExtractedData → List String → List ExtractedData
  | [], _ => []
  | r :: rs, seen =>
    if droppedRec r ∨ vkey r ∈ seen then groupSpec rs seen
    else { r with spend := r.spend + contribSpend (vkey r) rs } :: groupSpec rs (vkey r :: seen)

/-! ### Characterization of `groupByVendor` -/

/-- Add to `e` the spend contributed to its key by the records of `rs`. -/
def addContrib (rs : List ExtractedData) (e : ExtractedData) : ExtractedData :=
  { e with spend := e.spend + contribSpend (vkey e) rs }

theorem contribSpend_nil (k : String) : contribSpend k [] = 0 := rfl

theorem contribSpend_cons (k : String) (r : ExtractedData) (rs : List ExtractedData) :
    contribSpend k (r :: rs) =
      (if ¬ droppedRec r ∧ vkey r = k then r.spend else 0) + contribSpend k rs := by
  by_cases h : ¬ droppedRec r ∧ vkey r = k
  · simp [contribSpend, List.filter_cons, h]
  · simp [contribSpend, List.filter_cons, h]

theorem groupSpec_congr (rs : List ExtractedData) :
    ∀ s₁ s₂ : List String, (∀ k, k ∈ s₁ ↔ k ∈ s₂) → groupSpec rs s₁ = groupSpec rs s₂ := by
  induction rs with
  | nil => intro _ _ _; rfl
  | cons r rs ih =>
    intro s₁ s₂ h
    by_cases hd : droppedRec r ∨ vkey r ∈ s₁
    · have hd₂ : droppedRec r ∨ vkey r ∈ s₂ := by
        rcases hd with hd | hd
        · exact Or.inl hd
        · exact Or.inr ((h _).mp hd)
      rw [groupSpec, groupSpec, if_pos hd, if_pos hd₂, ih _ _ h]
    · have hd₂ : ¬ (droppedRec r ∨ vkey r ∈ s₂) := by
        rintro (hd' | hd')
        · exact hd (Or.inl hd')
        · exact hd (Or.inr ((h _).mpr hd'))
      rw [groupSpec, groupSpec, if_neg hd, if_neg hd₂]
      have h' : ∀ k, k ∈ vkey r :: s₁ ↔ k ∈ vkey r :: s₂ := by
        intro k
        simp only [List.mem_cons]
        exact or_congr Iff.rfl (h k)
      exact congrArg _ (ih _ _ h')

theorem vkey_update (e : ExtractedData) (q : ℚ) : vkey { e with spend := q } = vkey e := rfl

theorem foldl_groupStep_eq (rs : List ExtractedData) :
    ∀ m : List ExtractedData, (m.map vkey).Nodup →
      List.foldl groupStep m rs = m.map (addContrib rs) ++ groupSpec rs (m.map vkey) := by
  induction rs with
  | nil =>
    intro m _
    have h1 : m.map (addContrib []) = m.map id := by
      apply List.map_congr_left
      intro e _
      simp [addContrib, contribSpend_nil]
    simp [groupSpec, h1]
  | cons r rs ih =>
    intro m hm
    by_cases hd : droppedRec r
    · have h1 : List.foldl groupStep m (r :: rs) = List.foldl groupStep m rs := by
        rw [List.foldl_cons, groupStep, if_pos hd]
      have h2 : m.map (addContrib (r :: rs)) = m.map (addContrib rs) := by
        apply List.map_congr_left
        intro e _
        simp [addContrib, contribSpend_cons, hd]
      rw [h1, ih m hm, h2, groupSpec, if_pos (Or.inl hd)]
    · by_cases hin : vkey r ∈ m.map vkey
      · set upd := fun e : ExtractedData =>
          if vkey e = vkey r then { e with spend := e.spend + r.spend } else e with hupd
        have hstep : groupStep m r = m.map upd := by
          rw [groupStep, if_neg hd, if_pos hin]
        have hkeys : (m.map upd).map vkey = m.map vkey := by
          rw [List.map_map]
          apply List.map_congr_left
          intro e _
          by_cases he : vkey e = vkey r
          · simp only [Function.comp_apply, hupd, if_pos he]
            rfl
          · simp only [Function.comp_apply, hupd, if_neg he]
        have h2 : (m.map upd).map (addContrib rs) = m.map (addContrib (r :: rs)) := by
          rw [List.map_map]
          apply List.map_congr_left
          intro e _
          by_cases he : vkey e = vkey r
          · have hc : contribSpend (vkey e) (r :: rs) = r.spend + contribSpend (vkey e) rs := by
              rw [contribSpend_cons, if_pos ⟨hd, he.symm⟩]
            simp only [Function.comp_apply, hupd, if_pos he, addContrib, vkey_update, hc,
              ExtractedData.mk.injEq, true_and, and_true]
            ring
          · have hc : contribSpend (vkey e) (r :: rs) = contribSpend (vkey e) rs := by
              rw [contribSpend_cons, if_neg (by rintro ⟨-, hh⟩; exact he hh.symm), zero_add]
            simp only [Function.comp_apply, hupd, if_neg he, addContrib, hc]
        rw [List.foldl_cons, hstep, ih (m.map upd) (by rw [hkeys]; exact hm), hkeys, h2,
          groupSpec, if_pos (Or.inr hin)]
      · have hstep : groupStep m r = m ++ [r] := by
          rw [groupStep, if_neg hd, if_neg hin]
        have hkeys : (m ++ [r]).map vkey = m.map vkey ++ [vkey r] := by simp
        have hnd : ((m ++ [r]).map vkey).Nodup := by
          rw [hkeys, List.nodup_append]
          refine ⟨hm, List.nodup_singleton _, ?_⟩
          intro k hk hk'
          simp only [List.mem_singleton] at hk'
          exact hin (hk' ▸ hk)
        have h2 : m.map (addContrib rs) = m.map (addContrib (r :: rs)) := by
          apply List.map_congr_left
          intro e he
          have hne : ¬ (¬ droppedRec r ∧ vkey r = vkey e) := by
            rintro ⟨-, h⟩
            exact hin (h ▸ (List.mem_map_of_mem vkey he))
          simp [addContrib, contribSpend_cons, hne]
        have h3 : groupSpec rs (m.map vkey ++ [vkey r]) = groupSpec rs (vkey r :: m.map vkey) := by
          apply groupSpec_congr
          intro k
          simp only [List.mem_append, List.mem_singleton, List.mem_cons]
          tauto
        rw [List.foldl_cons, hstep, ih (m ++ [r]) hnd, hkeys, h3, List.map_append,
          groupSpec, if_neg (by rintro (h | h); exact hd h; exact hin h)]
        simp only [List.map_cons, List.map_nil, List.append_assoc, List.singleton_append]
        rw [← h2]
        rfl

/-- `groupByVendor`'s loop is exactly the spec-side aggregation. -/
theorem groupRecords_eq_groupSpec (rs : List ExtractedData) :
    groupRecords rs = groupSpec rs [] := by
  have h := foldl_groupStep_eq rs [] (by simp)
  simpa [groupRecords] using h

/-- The keys produced by `groupSpec` are distinct and avoid `seen`. -/
theorem groupSpec_keys (rs : List ExtractedData) :
    ∀ seen : List String,
      ((groupSpec rs seen).map vkey).Nodup ∧
        ∀ k ∈ (groupSpec rs seen).map vkey, k ∉ seen := by
  induction rs with
  | nil => intro seen; simp [groupSpec]
  | cons r rs ih =>
    intro seen
    by_cases hd : droppedRec r ∨ vkey r ∈ seen
    · rw [groupSpec, if_pos hd]; exact ih seen
    · rw [groupSpec, if_neg hd]
      obtain ⟨hnd, hout⟩ := ih (vkey r :: seen)
      push_neg at hd
      constructor
      · rw [List.map_cons, vkey_update, List.nodup_cons]
        exact ⟨fun hmem => (hout _ hmem) (List.mem_cons_self _ _), hnd⟩
      · intro k hk
        rw [List.map_cons, vkey_update, List.mem_cons] at hk
        rcases hk with rfl | hk
        · exact hd.2
        · exact fun hsk => (hout _ hk) (List.mem_cons_of_mem _ hsk)

/-- Every entry emitted by `groupSpec` has a non-empty vendor name (it is the
retained spelling of a non-dropped record). -/
theorem groupSpec_vendor_ne (rs : List ExtractedData) :
    ∀ seen e, e ∈ groupSpec rs seen → e.vendor ≠ "" := by
  induction rs with
  | nil => intro seen e he; simp [groupSpec] at he
  | cons r rs ih =>
    intro seen e he
    by_cases hd : droppedRec r ∨ vkey r ∈ seen
    · rw [groupSpec, if_pos hd] at he
      exact ih seen e he
    · rw [groupSpec, if_neg hd, List.mem_cons] at he
      rcases he with rfl | he
      · push_neg at hd
        intro hv
        exact hd.1 (Or.inl hv)
      · exact ih _ e he

/-- Inserting a row that the normalizer drops (empty vendor or zero spend)
anywhere in the input leaves the aggregation unchanged. -/
theorem groupRecords_ignores_dropped (x : ExtractedData) (hx : droppedRec x)
    (pre post : List ExtractedData) :
    groupRecords (pre ++ x :: post) = groupRecords (pre ++ post) := by
  simp only [groupRecords, List.foldl_append, List.foldl_cons]
  rw [groupStep, if_pos hx]

/-! ## Analysis result data model (`src/types/index.ts`) -/

/-- `riskLevel: 'Low' | 'Medium' | 'High'`. -/
inductive RiskLevel where
  | low
  | medium
  | high
deriving DecidableEq

/-- `VendorAlternative` from `types/index.ts`. -/
structure VendorAlternative where
  vendor : String
  estimatedPrice : String
  feasibility : String
deriving DecidableEq

/-- `AnalysisDetails` from `types/index.ts`. -/
structure AnalysisDetails where
  description : String
  implementation : String
  timeline : String
  riskLevel : RiskLevel
deriving DecidableEq

/-- `SpendAnalysis` from `types/index.ts` (the dashboard analysis item). -/
structure SpendAnalysis where
  id : String
  vendor : String
  segment : String
  category : String
  type : String
  item : String
  pastSpend : ℚ
  projectedSpend : ℚ
  projectedChange : String
  savingsRange : String
  savingsPercentage : String
  confidence : ℚ
  alternatives : List VendorAlternative
  details : AnalysisDetails
deriving DecidableEq

/-- The `potentialSavings` sub-object of `SummaryMetrics`. -/
structure PotentialSavings where
  min : ℚ
  max : ℚ
deriving DecidableEq

/-- `SummaryMetrics` from `types/index.ts`. -/
structure SummaryMetrics where
  pastSpend : ℚ
  projectedSpend : ℚ
  potentialSavings : PotentialSavings
  roi : ℚ
deriving DecidableEq

/-- `{ analysis, summary }` — the shape returned by the analysis pipeline. -/
structure ExternalApiResponse where
  analysis : List SpendAnalysis
  summary : SummaryMetrics
deriving DecidableEq

/-- `Math.round`: round half away from zero is JavaScript's round-half-up
towards `+∞`, i.e. `⌊q + 1/2⌋`. -/
def jsRound (q : ℚ) : ℤ := ⌊q + 1 / 2⌋

/-- `Math.round(q * 100) / 100`, the two-decimal rounding used throughout. -/
def round2 (q : ℚ) : ℚ := (jsRound (q * 100) : ℚ) / 100

/-- `q.toLocaleString()`.  Locale-dependent digit grouping is not modelled;
every call site in the source first rounds to an integer. -/
def jsLocaleString (q : ℚ) : String := jsRatToString q

/-! ## JSON values (remote stage responses) -/

/-- Parsed JSON body of a remote stage response. -/
inductive Json where
  | null
  | bool (b : Bool)
  | num (q : ℚ)
  | str (s : String)
  | arr (items : List Json)
  | obj (fields : List (String × Json))

/-- `j.k` — field access on an object (`none` = `undefined`). -/
def jsonGet : Json → String → Option Json
  | .obj fields, k => (fields.find? (fun p => p.1 == k)).map (·.2)
  | _, _ => none

/-- JavaScript truthiness of a JSON value. -/
def Json.truthy : Json → Bool
  | .null => false
  | .bool b => b
  | .num q => q != 0
  | .str s => s != ""
  | .arr _ => true
  | .obj _ => true

/-- `Number(j)`.  Coercion of objects/arrays (via `toString`) is not exercised
by any verified statement and is modelled as `NaN` (`none`). -/
def jsonNumber : Json → Option ℚ
  | .null => some 0
  | .bool b => some (if b then 1 else 0)
  | .num q => some q
  | .str s => jsStringToNumber s
  | .arr _ => none
  | .obj _ => none

/-- String coercion of a JSON value, used where the model stores a `String`
field that the source fills with a duck-typed value. -/
def jsonDisplay : Json → String
  | .null => "null"
  | .bool b => if b then "true" else "false"
  | .num q => jsRatToString q
  | .str s => s
  | .arr _ => ""
  | .obj _ => "[object Object]"

/-- A `a || b || … || d` chain over possibly-absent JSON values ending in the
literal default `d`: the first present truthy operand, else `d`. -/
def firstTruthyJson (cands : List (Option Json)) (dflt : Json) : Json :=
  match cands with
  | [] => dflt
  | c :: cs =>
    match c with
    | some v => if v.truthy then v else firstTruthyJson cs dflt
    | none => firstTruthyJson cs dflt

/-- Numeric field of a JSON object (used only in theorem statements). -/
def jsonNumField (j : Json) (k : String) : Option ℚ :=
  (jsonGet j k).bind jsonNumber

/-! ## `src/services/externalApiDemo.ts` -/

/-- `generateSummaryMetrics`: the summary is computed locally from the final
analysis array (`0.08`/`0.18` savings band, mean-savings ROI). -/
def generateSummaryMetrics (analysis : List SpendAnalysis) : SummaryMetrics :=
  let totalPastSpend := analysis.foldl (fun sum item => sum + item.pastSpend) 0
  let totalProjectedSpend := analysis.foldl (fun sum item => sum + item.projectedSpend) 0
  let savingsMin := totalPastSpend * (8 / 100)
  let savingsMax := totalPastSpend * (18 / 100)
  { pastSpend := totalPastSpend
    projectedSpend := totalProjectedSpend
    potentialSavings := { min := savingsMin, max := savingsMax }
    roi := (jsRound ((savingsMin + savingsMax) / 2 / totalPastSpend * 100) : ℚ) }

/-- The shape-sniffing prelude of `mapToSpendAnalysis`: look for the payload
array at `items`, `analysis`, the value itself, `data`, `vendors`, `result`;
else give up with `[]`. -/
def findAnalysisData (step2Data : Json) : List Json :=
  match jsonGet step2Data "items" with
  | some (.arr items) => items
  | _ =>
    match jsonGet step2Data "analysis" with
    | some (.arr items) => items
    | _ =>
      match step2Data with
      | .arr items => items
      | _ =>
        match jsonGet step2Data "data" with
        | some (.arr items) => items
        | _ =>
          match jsonGet step2Data "vendors" with
          | some (.arr items) => items
          | _ =>
            match jsonGet step2Data "result" with
            | some (.arr items) => items
            | _ => []

/-- `Math.min(...)` over a non-empty price list (callers guard emptiness). -/
def listMinQ (l : List ℚ) : ℚ :=
  match l with
  | [] => 0
  | x :: xs => xs.foldl min x

/-- `priceStr.replace(/[€,$\s]/g, '')`. -/
def stripPriceChars (s : String) : String :=
  String.mk (s.data.filter (fun c => !(c = '€' || c = ',' || c = '$' || jsWhitespace c)))

/-- The per-item body of `mapToSpendAnalysis` (one n8n response item to one
dashboard `SpendAnalysis`). -/
def mapItem (item : Json) (index : ℕ) : SpendAnalysis :=
  let vendorName := jsonDisplay (firstTruthyJson
    [jsonGet item "itemName", jsonGet item "vendor", jsonGet item "vendorName",
     jsonGet item "name", jsonGet item "supplier"] (.str ("Vendor " ++ toString (index + 1))))
  let pastSpend := (jsonNumber (firstTruthyJson
    [jsonGet item "spend", jsonGet item "price", jsonGet item "pastSpend",
     jsonGet item "amount"] (.num 0))).getD 0
  let projectedSpend := pastSpend * (105 / 100)
  let altsJson : List Json :=
    match jsonGet item "alternatives" with
    | some (.arr alts) => alts
    | _ => []
  let alternativePrices : List ℚ :=
    (altsJson.map (fun alt =>
      let priceStr := jsonDisplay (firstTruthyJson
        [jsonGet alt "price", jsonGet alt "estimatedPrice"] (.str "0"))
      (jsParseFloat (stripPriceChars priceStr)).getD 0)).filter (fun price => decide (0 < price))
  let savingsDefault : ℚ × ℚ × String :=
    ((jsRound (pastSpend * (8 / 100)) : ℚ), (jsRound (pastSpend * (15 / 100)) : ℚ), "-8 to -15%")
  let savings : ℚ × ℚ × String :=
    if alternativePrices ≠ [] then
      let cheapestPrice := listMinQ alternativePrices
      if cheapestPrice < pastSpend then
        (pastSpend - cheapestPrice, (jsRound (pastSpend * (20 / 100)) : ℚ),
          "-" ++ toString (jsRound ((pastSpend - cheapestPrice) / pastSpend * 100)) ++ " to -20%")
      else savingsDefault
    else savingsDefault
  let savingsRange := "€" ++ jsLocaleString savings.1 ++ " to €" ++ jsLocaleString savings.2.1
  let alternatives : List VendorAlternative := altsJson.map (fun alt =>
    { vendor := jsonDisplay (firstTruthyJson
        [jsonGet alt "vendor", jsonGet alt "supplier"] (.str "Alternative Vendor"))
      estimatedPrice := jsonDisplay (firstTruthyJson
        [jsonGet alt "price", jsonGet alt "estimatedPrice"] (.str "Price on request"))
      feasibility := jsonDisplay (firstTruthyJson
        [jsonGet alt "feasibility"] (.str "Contact vendor for details")) })
  let hasInfo : Bool :=
    match jsonGet item "additionalInformation" with
    | some v => v.truthy && (match v with | .str s => s != "-" | _ => true)
    | none => false
  let confidence :=
    (70 / 100 : ℚ) + (if alternatives.length > 0 then 10 / 100 else 0) +
      (if alternatives.length > 1 then 10 / 100 else 0) + (if hasInfo then 5 / 100 else 0)
  { id := jsonDisplay (firstTruthyJson [jsonGet item "uniqueId"]
      (.str ("vendor-" ++ toString (index + 1))))
    vendor := vendorName
    segment := jsonDisplay (firstTruthyJson [jsonGet item "category"] (.str "Operations"))
    category := jsonDisplay (firstTruthyJson
      [jsonGet item "subCategory", jsonGet item "category"] (.str "Hardware"))
    type := jsonDisplay (firstTruthyJson [jsonGet item "subCategory"]
      (.str "Industrial Equipment"))
    item := vendorName ++ " Analysis"
    pastSpend := pastSpend
    projectedSpend := round2 projectedSpend
    projectedChange := "+5%"
    savingsRange := savingsRange
    savingsPercentage := savings.2.2
    confidence := round2 confidence
    alternatives := alternatives
    details :=
      { description := "Analysis for " ++ vendorName ++ " - " ++
          toString alternatives.length ++ " alternatives found"
        implementation :=
          if alternatives.length > 0 then
            "Compare with " ++ toString alternatives.length ++ " alternative(s) and negotiate terms"
          else "Review contract terms and market alternatives"
        timeline := if alternatives.length > 1 then "30-60 days" else "45-90 days"
        riskLevel := if alternatives.length > 0 then .low else .medium } }

/-- `mapToSpendAnalysis` from `externalApiDemo.ts` (the first argument is
ignored by the source as well). -/
def mapToSpendAnalysis (_step1Data step2Data : Json) : List SpendAnalysis :=
  (findAnalysisData step2Data).enum.map (fun p => mapItem p.2 p.1)

/-- `Number(row.K || 0)` (`NaN` collapsed to `0`; see the header note). -/
def cvNumOrZero (o : Option CellValue) : ℚ :=
  match o with
  | some v => if v.truthy then (jsNumber v).getD 0 else 0
  | none => 0

/-- The per-row body of `generateMockData`.  `rand` is the `Math.random()`
stream and `k` the index of the next unconsumed draw; draws are consumed in
source evaluation order (conditional `baseSpend` draw, then `confidence`,
three alternative prices, `timeline`, `riskLevel`). -/
def mockItem (rand : ℕ → ℚ) (k : ℕ) (index : ℕ) (row : ExcelRow) : SpendAnalysis × ℕ :=
  let isPre := truthyOpt (rowGet row "vendor") && (rowGet row "spend").isSome
  let vendorName :=
    if isPre then cvOrEmpty (rowGet row "vendor")
    else
      let v := extractVendorName row
      if v = "" then "Vendor " ++ toString (index + 1) else v
  let baseSpendDraw : ℚ × ℕ :=
    if isPre then (cvNumOrZero (rowGet row "spend"), k)
    else
      let e := extractSpendAmount row
      if e = 0 then (50000 + rand k * 400000, k + 1) else (e, k)
  let baseSpend := baseSpendDraw.1
  let k1 := baseSpendDraw.2
  let actualSavings := if isPre then cvNumOrZero (rowGet row "potentialSavings") else 0
  let savingsPercent := if isPre then cvOrDefault (rowGet row "savingsPercentage") "15%" else "15%"
  let projectedSpend :=
    if isPre && truthyOpt (rowGet row "projectedSpend") then
      cvNumOrZero (rowGet row "projectedSpend")
    else baseSpend - |if actualSavings = 0 then baseSpend * (15 / 100) else actualSavings|
  let segment :=
    if isPre then cvOrDefault (rowGet row "segment") "Operations"
    else
      let s := extractSegment row
      if s = "" then "Operations" else s
  let category :=
    if isPre then cvOrDefault (rowGet row "category") "Hardware"
    else
      let c := extractCategory row
      if c = "" then "Hardware" else c
  ({ id := "vendor-" ++ toString (index + 1)
     vendor := vendorName
     segment := segment
     category := category
     type := if isPre then cvOrDefault (rowGet row "productInfo") category
       else "Enterprise Solution"
     item := vendorName ++ " Analysis"
     pastSpend := round2 baseSpend
     projectedSpend := round2 projectedSpend
     projectedChange := savingsPercent
     savingsRange :=
       if actualSavings ≠ 0 then "€" ++ jsLocaleString |actualSavings|
       else
         "€" ++ jsLocaleString (jsRound (baseSpend * (12 / 100)) : ℚ) ++ " to €" ++
           jsLocaleString (jsRound (baseSpend * (25 / 100)) : ℚ)
     savingsPercentage := savingsPercent
     confidence := round2 (85 / 100 + rand k1 * (15 / 100))
     alternatives :=
       [{ vendor := "Alternative " ++ toString (index + 1) ++ "A"
          estimatedPrice := "€" ++
            jsLocaleString (jsRound (baseSpend * (75 / 100 + rand (k1 + 1) * (15 / 100))) : ℚ)
          feasibility := "High - verified compatibility" },
        { vendor := "Alternative " ++ toString (index + 1) ++ "B"
          estimatedPrice := "€" ++
            jsLocaleString (jsRound (baseSpend * (60 / 100 + rand (k1 + 2) * (20 / 100))) : ℚ)
          feasibility := "Medium - requires integration assessment" },
        { vendor := "Market Leader " ++ toString (index + 1)
          estimatedPrice := "€" ++
            jsLocaleString (jsRound (baseSpend * (80 / 100 + rand (k1 + 3) * (10 / 100))) : ℚ)
          feasibility := "High - industry standard solution" }]
     details :=
       { description := "Standard procurement analysis with cost optimization opportunities"
         implementation := "Review contract terms and explore alternatives"
         timeline := toString (30 + jsRound (rand (k1 + 4) * 60)) ++ " days"
         riskLevel := if rand (k1 + 5) > 7 / 10 then .medium else .low } }, k1 + 6)

/-- The `excelData.map((row, index) => …)` loop of `generateMockData`,
threading the random stream. -/
def mockItems (rand : ℕ → ℚ) : List ExcelRow → ℕ → ℕ → List SpendAnalysis
  | [], _, _ => []
  | row :: rows, index, k =>
    let p := mockItem rand k index row
    p.1 :: mockItems rand rows (index + 1) p.2

/-- `generateMockData` from `externalApiDemo.ts`: one synthesized analysis
item per input row, summary generated locally from the synthesized array. -/
def generateMockData (rand : ℕ → ℚ) (excelData : List ExcelRow) : ExternalApiResponse :=
  let mockAnalysis := mockItems rand excelData 0 0
  { analysis := mockAnalysis, summary := generateSummaryMetrics mockAnalysis }

/-- Outcome of the two n8n stage calls as seen by `processWithNormalAPIs`:
`.error` is any thrown failure (non-2xx response, network error), `.ok` the
parsed JSON body.  The request payloads (markdown conversion) do not affect
the returned value and are not modelled. -/
structure N8nEnv where
  step1 : Except Unit Json
  step2 : Except Unit Json

/-- `processWithNormalAPIs` from `externalApiDemo.ts`: run the two stages,
map the response and generate the summary locally; any failure — including an
empty mapped analysis, which the source turns into a thrown error — falls
back to `generateMockData`. -/
def processWithNormalAPIs (env : N8nEnv) (rand : ℕ → ℚ) (excelData : List ExcelRow) :
    ExternalApiResponse :=
  match env.step1 with
  | .error _ => generateMockData rand excelData
  | .ok step1Result =>
    match env.step2 with
    | .error _ => generateMockData rand excelData
    | .ok step2Result =>
      let analysis := mapToSpendAnalysis step1Result step2Result
      if analysis.length = 0 then generateMockData rand excelData
      else { analysis := analysis, summary := generateSummaryMetrics analysis }

/-! ## `src/services/openai.ts` — CSV parsing -/

/-- Accumulator loop for single-character `String.prototype.split`. -/
def splitCharAux (sep : Char) : List Char → List Char → List String
  | [], acc => [String.mk acc.reverse]
  | c :: cs, acc =>
    if c = sep then String.mk acc.reverse :: splitCharAux sep cs []
    else splitCharAux sep cs (c :: acc)

/-- `s.split(sep)` for a single-character separator. -/
def jsSplitChar (sep : Char) (s : String) : List String := splitCharAux sep s.data []

/-- Occurrences of delimiter `d` across the first 3 lines of `text`
(`text.split('\n').slice(0, 3)` and the per-line regex match count). -/
def delimCount (text : String) (d : Char) : ℕ :=
  (((jsSplitChar '\n' text).take 3).map (fun l => l.data.count d)).sum

/-- `detectCsvDelimiter` from `openai.ts`: scan `[';', ',', '\t']` keeping the
first delimiter whose count strictly exceeds the running maximum (initially
`(',', 0)`). -/
def detectCsvDelimiter (text : String) : Char :=
  (([';', ',', '\t']).foldl
    (fun acc d =>
      let totalCount := delimCount text d
      if totalCount > acc.2 then (d, totalCount) else acc)
    (',', 0)).1

/-- The regex test `/^\d+,\d{2,3}$/.test(value)` of `convertEuropeanDecimals`:
one or more digits, a comma, then exactly 2 or 3 digits. -/
def euroMatch (cs : List Char) : Bool :=
  let ds := cs.takeWhile Char.isDigit
  let rest := cs.dropWhile Char.isDigit
  match rest with
  | c :: tail =>
    !ds.isEmpty && c == ',' && tail.all Char.isDigit && (tail.length == 2 || tail.length == 3)
  | [] => false

/-- `convertEuropeanDecimals` from `openai.ts`: the leading `!value` guard
returns falsy values unchanged; a matching token has its (only) comma turned
into a dot; anything else is returned unchanged. -/
def convertEuropeanDecimals (value : String) : String :=
  if value = "" then value
  else if euroMatch value.data then jsReplaceFirst ',' '.' value
  else value

/-- `parseCsvFile` from `openai.ts`, applied to the text produced by the
`FileReader` (the file-handle plumbing is not modelled): detect the
delimiter, drop blank lines, take the first line as headers, skip data lines
that do not split into more than one field, and normalise each cell.  A row
object is an ordered header/value list (header labels are distinct in every
verified statement, so JavaScript's overwrite-on-duplicate-key is not
exercised). -/
def parseCsvFile (text : String) : List (List (String × String)) :=
  let delimiter := detectCsvDelimiter text
  let lines := (jsSplitChar '\n' text).filter (fun line => jsTrim line != "")
  match lines with
  | [] => []
  | headerLine :: rest =>
    let headers := (jsSplitChar delimiter headerLine).map jsTrim
    rest.filterMap (fun line =>
      let values := jsSplitChar delimiter line
      if values.length > 1 then
        some (headers.enum.map (fun p =>
          (p.2, convertEuropeanDecimals (jsTrim (values.getD p.1 "")))))
      else none)

/-! ## `src/services/openai.ts` — Excel parsing decision -/

/-- The column-letter-to-readable remapping of `parseExcelFile`'s alternative
path: `row['A'] && index === 0 ? 'Header' : 'Column_' + key`. -/
def convertAltRow (row : ExcelRow) : ExcelRow :=
  row.enum.map (fun p =>
    ((if truthyOpt (rowGet row "A") ∧ p.1 = 0 then "Header" else "Column_" ++ p.2.1), p.2.2))

/-- The resolution logic of `parseExcelFile` once the workbook is decoded:
`primary` is the header-keyed decoding (`header: 1`), `alternative` the
column-letter decoding (`header: 'A'`).  If the primary result is empty or a
degenerate single-column shape, a non-empty alternative is remapped and
returned; otherwise the primary result is returned — including when it is
empty and the alternative is too. -/
def parseExcelRows (primary alternative : List ExcelRow) : List ExcelRow :=
  if primary.length = 0 ∨ (primary.headD []).length < 2 then
    if alternative.length > 0 then alternative.map convertAltRow
    else primary
  else primary

/-- `parseExcelFile` from `openai.ts` as a promise: it rejects exactly when
the workbook decoder (`XLSX.read` / `FileReader`) throws, and otherwise
resolves with `parseExcelRows`. -/
def parseExcelFile (decoded : Except String (List ExcelRow × List ExcelRow)) :
    Except String (List ExcelRow) :=
  match decoded with
  | .error e => .error e
  | .ok d => .ok (parseExcelRows d.1 d.2)

/-! ## `src/services/openai.ts` — analysis cache -/

/-- `Map.get`: first (unique) binding of the key. -/
def mapGet {α : Type} (m : List (String × α)) (k : String) : Option α :=
  match m with
  | [] => none
  | p :: rest => if p.1 = k then some p.2 else mapGet rest k

/-- `Map.set`: update in place, preserving insertion order, else append. -/
def mapSet {α : Type} (m : List (String × α)) (k : String) (v : α) : List (String × α) :=
  match m with
  | [] => [(k, v)]
  | p :: rest => if p.1 = k then (k, v) :: rest else p :: mapSet rest k v

/-- `Map.delete`. -/
def mapDelete {α : Type} (m : List (String × α)) (k : String) : List (String × α) :=
  match m with
  | [] => []
  | p :: rest => if p.1 = k then mapDelete rest k else p :: mapDelete rest k

/-- The source's `AnalysisResponse` interface (`{ analysis, summary }`). -/
abbrev AnalysisResponse := ExternalApiResponse

/-- The module-level `analysisCache` map, insertion-ordered. -/
abbrev AnalysisCache := List (String × AnalysisResponse)

/-- `getCachedAnalysis` from `openai.ts`. -/
def getCachedAnalysis (cache : AnalysisCache) (fileHash : String) : Option AnalysisResponse :=
  mapGet cache fileHash

/-- `cacheAnalysis` from `openai.ts`: insert, then if the cache holds more
than 10 entries evict the first (oldest) key. -/
def cacheAnalysis (cache : AnalysisCache) (fileHash : String) (analysis : AnalysisResponse) :
    AnalysisCache :=
  let c := mapSet cache fileHash analysis
  if c.length > 10 then
    match c with
    | [] => c
    | first :: _ => mapDelete c first.1
  else c

/-- The cache flow of `FileUpload.processExcelFile`: hash the uploaded bytes
(SHA-256, so byte-identical uploads share `fileHash`), return a cached result
without touching the network, and otherwise run the remote analysis — whose
successful outcome is abstracted as `fresh` — then cache it.  The third
component counts the outbound stage requests: a remote analysis issues one
stage-1 and one stage-2 request, a cache hit issues none. -/
def processExcelFile (cache : AnalysisCache) (fileHash : String) (fresh : AnalysisResponse) :
    AnalysisResponse × AnalysisCache × ℕ :=
  match getCachedAnalysis cache fileHash with
  | some cached => (cached, cache, 0)
  | none => (fresh, cacheAnalysis cache fileHash fresh, 2)

/-! ## `src/services/openai.ts` — `performAnalysis` -/

/-- The value `performAnalysis` resolves with: the stage-2 body's `analysis`
array (ids filled in) and its `summary`, both kept as raw JSON — the source
performs no further decoding or recomputation. -/
structure RawAnalysisResponse where
  analysis : List Json
  summary : Json

/-- Remote outcomes seen by `performAnalysis`: the connection test, the
stage-1 fetch (its body is forwarded to stage 2 and does not influence the
returned value), and the stage-2 response flag and parsed body. -/
structure OpenAIEnv where
  connectionOk : Bool
  stage1Ok : Bool
  stage1Body : Json
  stage2Ok : Bool
  stage2Body : Json

/-- `{...item, id: v}`: update the field in place or append it. -/
def jsonObjSet (j : Json) (k : String) (v : Json) : Json :=
  match j with
  | .obj fields =>
    .obj (if (fields.map (·.1)).contains k
      then fields.map (fun p => if p.1 = k then (k, v) else p)
      else fields ++ [(k, v)])
  | _ => .obj [(k, v)]

/-- `{...item, id: item.id || 'vendor-' + (index + 1)}`. -/
def fillId (index : ℕ) (item : Json) : Json :=
  jsonObjSet item "id" (firstTruthyJson [jsonGet item "id"]
    (.str ("vendor-" ++ toString (index + 1))))

/-- `performAnalysis` from `openai.ts`: connection test, two stage calls,
shape validation (`analysis` must be an array, `summary` truthy and of
`typeof 'object'`), id filling — and the stage-2 `summary` returned verbatim,
not recomputed from the `analysis` array. -/
def performAnalysis (env : OpenAIEnv) (_excelData : List ExcelRow) :
    Except String RawAnalysisResponse :=
  if !env.connectionOk then .error "OpenAI API connection failed"
  else if !env.stage1Ok then .error "stage 1 request failed"
  else if !env.stage2Ok then .error "Stage 2 API error"
  else
    match jsonGet env.stage2Body "analysis" with
    | some (.arr items) =>
      match jsonGet env.stage2Body "summary" with
      | some s =>
        if s.truthy && (match s with | .obj _ => true | .arr _ => true | _ => false) then
          .ok { analysis := items.enum.map (fun p => fillId p.1 p.2), summary := s }
        else .error "Invalid response structure: missing summary object"
      | none => .error "Invalid response structure: missing summary object"
    | _ => .error "Invalid response structure: missing analysis array"

/-! ## `src/services/conversationData.ts` -/

/-- `role: 'user' | 'assistant'`. -/
inductive ChatRole where
  | user
  | assistant
deriving DecidableEq

/-- The optional `context` payload of a chat message. -/
structure MessageContext where
  fileId : Option String
  vendorMentioned : Option (List String)
  savingsCalculated : Option ℚ
deriving DecidableEq

/-- `ChatMessage` from `conversationData.ts` (timestamps are abstract ticks). -/
structure ChatMessage where
  id : String
  role : ChatRole
  content : String
  timestamp : ℕ
  context : Option MessageContext
deriving DecidableEq

/-- `ConversationData` from `conversationData.ts`. -/
structure ConversationData where
  fileId : String
  fileName : String
  uploadTimestamp : ℕ
  rawData : List ExcelRow
  normalizedData : List ExcelRow
  analysisResults : List SpendAnalysis
  summaryMetrics : SummaryMetrics
  conversationHistory : List ChatMessage
deriving DecidableEq

/-- The private state of `ConversationDataManager`: the `conversations` map
(insertion-ordered) and the `currentFileId` pointer. -/
structure ConversationStore where
  conversations : List (String × ConversationData)
  currentFileId : Option String
deriving DecidableEq

/-- `storeAnalysis` from `conversationData.ts` (`now` is `new Date()`): build
a fresh record with empty `normalizedData` and `conversationHistory`, set it
under `fileId`, and make `fileId` current. -/
def storeAnalysis (st : ConversationStore) (now : ℕ) (fileId fileName : String)
    (rawData : List ExcelRow) (analysisResults : List SpendAnalysis)
    (summaryMetrics : SummaryMetrics) : ConversationStore :=
  let conversationData : ConversationData :=
    { fileId := fileId
      fileName := fileName
      uploadTimestamp := now
      rawData := rawData
      normalizedData := []
      analysisResults := analysisResults
      summaryMetrics := summaryMetrics
      conversationHistory := [] }
  { conversations := mapSet st.conversations fileId conversationData
    currentFileId := some fileId }

/-- `addChatMessage` from `conversationData.ts`: append to the history of an
existing record; warn-and-ignore when the file is unknown. -/
def addChatMessage (st : ConversationStore) (fileId : String) (message : ChatMessage) :
    ConversationStore :=
  match mapGet st.conversations fileId with
  | some conversation =>
    let updated := { conversation with
      conversationHistory := conversation.conversationHistory ++ [message] }
    { st with conversations := mapSet st.conversations fileId updated }
  | none => st

/-- `getConversationHistory` from `conversationData.ts`. -/
def getConversationHistory (st : ConversationStore) (fileId : String) : List ChatMessage :=
  match mapGet st.conversations fileId with
  | some c => c.conversationHistory
  | none => []

/-! ## `src/services/openai.ts` — in-flight de-duplication of `analyzeExcelData`

`analyzeExcelData` awaits a content hash of the serialized input, then — in
one synchronous (hence atomic, on the single-threaded event loop) block —
checks `activeRequests` for that hash: if present it awaits the existing
promise, otherwise it starts `performAnalysis` (which issues the pair of
stage requests), registers the promise, and deletes the entry in `finally`.

Two calls with byte-identical input share one hash, so the system below has
one registration slot.  Each call is a small state machine whose steps are
the atomic segments between `await` suspension points:

* `notStarted → hashing`: the call is invoked (`generateDataHash` begins);
* `hashing → …`: the hash resolves and the atomic check-and-register block
  runs — if a request is registered the call becomes a *waiter* on the shared
  promise, otherwise it becomes the *worker*, increments the stage-pair
  counter (its unique `performAnalysis` invocation) and registers itself;
* `inFlightRemote → finished`: the worker's remote call resolves and the
  `finally` block deletes the registration;
* `awaitingShared → finished`: a waiter resumes once the worker's promise has
  resolved.

The scheduler (a list of booleans choosing which call steps next) is
adversarial, modelling arbitrary event-loop interleavings. -/

/-- Role a call acquires at its check-and-register step (`unassigned` before
that step runs). -/
inductive CallRole where
  | unassigned
  | worker
  | waiter
deriving DecidableEq

/-- Progress of one `analyzeExcelData` call. -/
inductive CallPhase where
  | notStarted
  | hashing
  | inFlightRemote
  | awaitingShared
  | finished
deriving DecidableEq

/-- One call: its phase and the role fixed at its check step. -/
structure CallState where
  phase : CallPhase
  role : CallRole
deriving DecidableEq

/-- Two concurrent identical calls, the shared `activeRequests` slot for
their common hash, and the outbound stage-request pair counter. -/
structure DedupState where
  t0 : CallState
  t1 : CallState
  registered : Bool
  pairsSent : ℕ
deriving DecidableEq

/-- Step one call (stuttering when it cannot run). -/
def stepCall (t : CallState) (otherFinished : Bool) (registered : Bool) (pairs : ℕ) :
    CallState × Bool × ℕ :=
  match t.phase with
  | .notStarted => ({ t with phase := .hashing }, registered, pairs)
  | .hashing =>
    if registered then ({ phase := .awaitingShared, role := .waiter }, registered, pairs)
    else ({ phase := .inFlightRemote, role := .worker }, true, pairs + 1)
  | .inFlightRemote => ({ t with phase := .finished }, false, pairs)
  | .awaitingShared =>
    if otherFinished then ({ t with phase := .finished }, registered, pairs)
    else (t, registered, pairs)
  | .finished => (t, registered, pairs)

/-- Scheduler step: `false` steps call 0, `true` steps call 1. -/
def dedupStep (s : DedupState) (i : Bool) : DedupState :=
  if i then
    let r := stepCall s.t1 (s.t0.phase = .finished) s.registered s.pairsSent
    { s with t1 := r.1, registered := r.2.1, pairsSent := r.2.2 }
  else
    let r := stepCall s.t0 (s.t1.phase = .finished) s.registered s.pairsSent
    { s with t0 := r.1, registered := r.2.1, pairsSent := r.2.2 }

/-- Both calls invoked, nothing hashed yet, no request registered or sent. -/
def dedupInit : DedupState :=
  { t0 := { phase := .notStarted, role := .unassigned }
    t1 := { phase := .notStarted, role := .unassigned }
    registered := false
    pairsSent := 0 }

/-- Run a schedule. -/
def dedupRun (sched : List Bool) : DedupState := sched.foldl dedupStep dedupInit

/-! ## Helper lemmas -/

theorem foldl_add_map {α : Type} (f : α → ℚ) :
    ∀ (l : List α) (a : ℚ), l.foldl (fun s x => s + f x) a = a + (l.map f).sum := by
  intro l
  induction l with
  | nil => intro a; simp
  | cons x xs ih => intro a; simp [ih, add_assoc]

theorem generateSummaryMetrics_sums (analysis : List SpendAnalysis) :
    (generateSummaryMetrics analysis).pastSpend = (analysis.map (·.pastSpend)).sum ∧
    (generateSummaryMetrics analysis).projectedSpend = (analysis.map (·.projectedSpend)).sum := by
  constructor <;> simp [generateSummaryMetrics, foldl_add_map]

theorem processWithNormalAPIs_summary_local (env : N8nEnv) (rand : ℕ → ℚ)
    (excelData : List ExcelRow) :
    (processWithNormalAPIs env rand excelData).summary =
      generateSummaryMetrics (processWithNormalAPIs env rand excelData).analysis := by
  rcases h1 : env.step1 with e1 | s1
  · simp only [processWithNormalAPIs, h1, generateMockData]
  · rcases h2 : env.step2 with e2 | s2
    · simp only [processWithNormalAPIs, h1, h2, generateMockData]
    · by_cases h : (mapToSpendAnalysis s1 s2).length = 0
      · simp only [processWithNormalAPIs, h1, h2, if_pos h, generateMockData]
      · simp only [processWithNormalAPIs, h1, h2, if_neg h]

theorem mockItems_length (rand : ℕ → ℚ) :
    ∀ (rows : List ExcelRow) (index k : ℕ), (mockItems rand rows index k).length = rows.length := by
  intro rows
  induction rows with
  | nil => intro i k; rfl
  | cons r rs ih => intro i k; simp [mockItems, ih]

theorem mapGet_mapSet_self {α : Type} (m : List (String × α)) (k : String) (v : α) :
    mapGet (mapSet m k v) k = some v := by
  induction m with
  | nil => simp [mapSet, mapGet]
  | cons p rest ih =>
    by_cases h : p.1 = k
    · simp [mapSet, mapGet, h]
    · simp [mapSet, mapGet, h, ih]

theorem mapSet_of_get_none {α : Type} (m : List (String × α)) (k : String) (v : α)
    (h : mapGet m k = none) : mapSet m k v = m ++ [(k, v)] := by
  induction m with
  | nil => rfl
  | cons p rest ih =>
    by_cases hp : p.1 = k
    · rw [mapGet, if_pos hp] at h
      exact absurd h (Option.some_ne_none _)
    · rw [mapGet, if_neg hp] at h
      rw [mapSet, if_neg hp, ih h, List.cons_append]

theorem mapGet_append_right {α : Type} (m l : List (String × α)) (k : String)
    (h : mapGet m k = none) : mapGet (m ++ l) k = mapGet l k := by
  induction m with
  | nil => rfl
  | cons p rest ih =>
    by_cases hp : p.1 = k
    · rw [mapGet, if_pos hp] at h
      exact absurd h (Option.some_ne_none _)
    · rw [mapGet, if_neg hp] at h
      rw [List.cons_append, mapGet, if_neg hp, ih h]

theorem mapGet_delete_none {α : Type} (m : List (String × α)) (k j : String)
    (h : mapGet m k = none) : mapGet (mapDelete m j) k = none := by
  induction m with
  | nil => rfl
  | cons p rest ih =>
    by_cases hp : p.1 = k
    · rw [mapGet, if_pos hp] at h
      exact absurd h (Option.some_ne_none _)
    · rw [mapGet, if_neg hp] at h
      by_cases hj : p.1 = j
      · rw [mapDelete, if_pos hj]
        exact ih h
      · rw [mapDelete, if_neg hj, mapGet, if_neg hp]
        exact ih h

theorem mapDelete_append {α : Type} (m l : List (String × α)) (j : String) :
    mapDelete (m ++ l) j = mapDelete m j ++ mapDelete l j := by
  induction m with
  | nil => rfl
  | cons p rest ih =>
    by_cases hj : p.1 = j
    · rw [List.cons_append, mapDelete, if_pos hj, ih, mapDelete, if_pos hj]
    · rw [List.cons_append, mapDelete, if_neg hj, ih, mapDelete, if_neg hj, List.cons_append]

theorem cacheAnalysis_get_self (cache : AnalysisCache) (h : String) (v : AnalysisResponse)
    (hm : getCachedAnalysis cache h = none) :
    getCachedAnalysis (cacheAnalysis cache h v) h = some v := by
  unfold getCachedAnalysis at hm ⊢
  unfold cacheAnalysis
  rw [mapSet_of_get_none _ _ _ hm]
  by_cases hl : (cache ++ [(h, v)]).length > 10
  · rw [if_pos hl]
    cases cache with
    | nil => simp at hl
    | cons p rest =>
      have hp : p.1 ≠ h := by
        intro hh
        rw [mapGet, if_pos hh] at hm
        exact absurd hm (Option.some_ne_none _)
      show mapGet (mapDelete ((p :: rest) ++ [(h, v)]) p.1) h = some v
      rw [mapDelete_append]
      rw [mapGet_append_right _ _ _ (mapGet_delete_none _ _ _ hm)]
      rw [mapDelete, if_neg (fun hh => hp hh.symm), mapDelete, mapGet, if_pos rfl]
  · rw [if_neg hl]
    rw [mapGet_append_right _ _ _ hm, mapGet, if_pos rfl]

/-! ## Claims -/

/-- Claim C1: for every `AnalysisResult` returned by the analysis request
pipeline `processWithNormalAPIs` — whether produced by the remote two-stage
call or by fallback synthesis — `summary.pastSpend` equals the exact sum of
`item.pastSpend` over the final analysis array and `summary.projectedSpend`
equals the exact sum of `item.projectedSpend` over the same array, because
the summary is generated locally (`generateSummaryMetrics`) from the final
analysis array rather than taken from the remote response. -/
theorem C1_aggregate_invariant (env : N8nEnv) (rand : ℕ → ℚ) (excelData : List ExcelRow) :
    (processWithNormalAPIs env rand excelData).summary.pastSpend =
      ((processWithNormalAPIs env rand excelData).analysis.map (·.pastSpend)).sum ∧
    (processWithNormalAPIs env rand excelData).summary.projectedSpend =
      ((processWithNormalAPIs env rand excelData).analysis.map (·.projectedSpend)).sum ∧
    (processWithNormalAPIs env rand excelData).summary =
      generateSummaryMetrics (processWithNormalAPIs env rand excelData).analysis := by
  have hloc := processWithNormalAPIs_summary_local env rand excelData
  refine ⟨?_, ?_, hloc⟩
  · rw [hloc]
    exact (generateSummaryMetrics_sums _).1
  · rw [hloc]
    exact (generateSummaryMetrics_sums _).2

/-- A cached analysis value used by the cache statements. -/
def respA : AnalysisResponse :=
  { analysis := []
    summary := { pastSpend := 1, projectedSpend := 0,
                 potentialSavings := { min := 0, max := 0 }, roi := 0 } }

/-- A second, distinct analysis value. -/
def respB : AnalysisResponse :=
  { analysis := []
    summary := { pastSpend := 2, projectedSpend := 0,
                 potentialSavings := { min := 0, max := 0 }, roi := 0 } }

/-- Cache contents after caching `"h0"` and then ten further distinct hashes:
the insertion of the 11th entry evicts the oldest entry, `"h0"`. -/
def evictedCache : AnalysisCache :=
  (List.range 10).foldl (fun c i => cacheAnalysis c ("h" ++ toString (i + 1)) respB)
    (cacheAnalysis [] "h0" respA)

/-- Claim C2 counterexample: a successfully cached result for hash `"h0"` is
evicted after ten more distinct results are cached (the capacity bound of
`cacheAnalysis`), so a later byte-identical upload misses the cache and
issues the two stage requests again — refuting "every later analysis of
byte-identical content returns that cached result … zero stage requests". -/
theorem C2_counterexample :
    getCachedAnalysis (cacheAnalysis [] "h0" respA) "h0" = some respA ∧
    getCachedAnalysis evictedCache "h0" = none ∧
    (processExcelFile evictedCache "h0" respB).2.2 = 2 := by decide

/-- Claim C2 (amended): while the entry for a content hash is still cached,
an analysis of byte-identical content returns the cached result with zero
stage requests; on a miss the remote analysis runs (two stage requests), is
cached, and an immediately following identical upload returns it from the
cache with zero requests.  The entry may however be evicted once more than
ten other results have been cached, after which the remote call is repeated
(see the counterexample). -/
theorem C2_cache_idempotence (cache : AnalysisCache) (h : String)
    (r fresh fresh2 : AnalysisResponse) :
    (getCachedAnalysis cache h = some r → processExcelFile cache h fresh = (r, cache, 0)) ∧
    (getCachedAnalysis cache h = none →
      (processExcelFile cache h fresh).1 = fresh ∧
      (processExcelFile cache h fresh).2.2 = 2 ∧
      processExcelFile (processExcelFile cache h fresh).2.1 h fresh2 =
        (fresh, (processExcelFile cache h fresh).2.1, 0)) := by
  constructor
  · intro hc
    simp only [processExcelFile, hc]
  · intro hc
    have h3 : processExcelFile (processExcelFile cache h fresh).2.1 h fresh2 =
        (fresh, (processExcelFile cache h fresh).2.1, 0) := by
      simp only [processExcelFile, hc]
      simp only [cacheAnalysis_get_self _ _ _ hc]
    exact ⟨by simp only [processExcelFile, hc], by simp only [processExcelFile, hc], h3⟩

/-- Witness for claim C2's amended theorem at concrete caches. -/
theorem C2_witness :
    processExcelFile [("h0", respA)] "h0" respB = (respA, [("h0", respA)], 0) ∧
    processExcelFile (processExcelFile [] "h0" respB).2.1 "h0" respA =
      (respB, (processExcelFile [] "h0" respB).2.1, 0) :=
  ⟨(C2_cache_idempotence [("h0", respA)] "h0" respA respB respA).1 (by decide),
   ((C2_cache_idempotence [] "h0" respA respB respA).2 (by decide)).2.2⟩

/-- The `Math.random()` stream used at concrete inputs. -/
def rand0 : ℕ → ℚ := fun _ => 0

/-- Environment in which both remote stage calls fail. -/
def envBothFail : N8nEnv := { step1 := .error (), step2 := .error () }

/-- Two rows naming the same vendor. -/
def twoAcmeRows : List ExcelRow :=
  [[("vendor", .str "Acme"), ("spend", .num 100)],
   [("vendor", .str "Acme"), ("spend", .num 100)]]

/-- Claim C4 counterexample: with both stages failing, the fallback
synthesizes one analysis item per input *row*, so two rows naming the same
vendor yield an analysis of length 2 while the input's distinct-vendor count
(as computed by the repository's own aggregator) is 1. -/
theorem C4_counterexample :
    (processWithNormalAPIs envBothFail rand0 twoAcmeRows).analysis.length = 2 ∧
    (groupByVendor twoAcmeRows).length = 1 := by decide

/-- Claim C4 (amended): for every input row list, if either remote stage call
fails the pipeline still resolves — it never rejects — with the fallback
synthesis, whose analysis array has exactly one item per input row (hence is
non-empty for non-empty input).  The vendor count therefore equals the
input's distinct-vendor count only when the input rows are already one per
vendor, not in general. -/
theorem C4_fallback_resolves (env : N8nEnv) (rand : ℕ → ℚ) (rows : List ExcelRow)
    (hfail : env.step1 = .error () ∨ env.step2 = .error ()) :
    processWithNormalAPIs env rand rows = generateMockData rand rows ∧
    (processWithNormalAPIs env rand rows).analysis.length = rows.length ∧
    (rows ≠ [] → (processWithNormalAPIs env rand rows).analysis ≠ []) := by
  have hmock : processWithNormalAPIs env rand rows = generateMockData rand rows := by
    rcases hfail with hf | hf
    · simp only [processWithNormalAPIs, hf]
    · rcases h1 : env.step1 with e1 | s1
      · simp only [processWithNormalAPIs, h1]
      · simp only [processWithNormalAPIs, h1, hf]
  have hlen : (generateMockData rand rows).analysis.length = rows.length := by
    simp [generateMockData, mockItems_length]
  refine ⟨hmock, by rw [hmock]; exact hlen, ?_⟩
  intro hne
  rw [hmock]
  intro hnil
  exact hne (List.length_eq_zero.mp (by rw [← hlen, hnil]; simp))

/-- Witness for claim C4's amended theorem at a concrete failing environment. -/
theorem C4_witness :
    processWithNormalAPIs envBothFail rand0 twoAcmeRows = generateMockData rand0 twoAcmeRows ∧
    (processWithNormalAPIs envBothFail rand0 twoAcmeRows).analysis ≠ [] :=
  ⟨(C4_fallback_resolves envBothFail rand0 twoAcmeRows (Or.inl rfl)).1,
   (C4_fallback_resolves envBothFail rand0 twoAcmeRows (Or.inl rfl)).2.2 (by decide)⟩

/-- Claim C5: for every input, `groupByVendor` (keyed by
`vendor.toLowerCase()`) yields exactly one entry per case-insensitively
distinct non-dropped vendor — the spec-side aggregation `groupSpec`, whose
entries appear in first-seen order, take vendor spelling, category and
segment from the first occurrence, and sum the spends of all contributing
records; the key list of the output has no duplicates.  In particular the
rows Acme 100 / ACME 50 / Other 10 yield exactly the two entries
Acme 150 and Other 10. -/
theorem C5_vendor_grouping :
    (∀ data : List ExcelRow, groupByVendor data = groupSpec (data.map normalizeExcelRow) []) ∧
    (∀ data : List ExcelRow, ((groupByVendor data).map vkey).Nodup) ∧
    groupByVendor
      [[("vendor", .str "Acme"), ("spend", .num 100)],
       [("vendor", .str "ACME"), ("spend", .num 50)],
       [("vendor", .str "Other"), ("spend", .num 10)]] =
      [⟨"Acme", 150, "Software", "IT"⟩, ⟨"Other", 10, "Software", "IT"⟩] := by
  refine ⟨?_, ?_, ?_⟩
  · intro data
    exact groupRecords_eq_groupSpec _
  · intro data
    rw [groupByVendor, groupRecords_eq_groupSpec]
    exact (groupSpec_keys _ []).1
  · have h : (100 : ℚ) + 50 = 150 := by norm_num
    have e : groupByVendor
        [[("vendor", .str "Acme"), ("spend", .num 100)],
         [("vendor", .str "ACME"), ("spend", .num 50)],
         [("vendor", .str "Other"), ("spend", .num 10)]] =
        [⟨"Acme", (100 : ℚ) + 50, "Software", "IT"⟩, ⟨"Other", 10, "Software", "IT"⟩] := rfl
    rw [e, h]

/-- Claim C6 counterexample: a row whose extracted spend is negative is kept
by `groupByVendor` (the drop test is `spend === 0`, not `spend ≤ 0`), so the
aggregated output contains a record violating `spend > 0`. -/
theorem C6_counterexample :
    groupByVendor [[("vendor", .str "X"), ("spend", .num (-5))]] =
      [⟨"X", -5, "Software", "IT"⟩] ∧
    ¬ (∀ e ∈ groupByVendor [[("vendor", .str "X"), ("spend", .num (-5))]], 0 < e.spend) := by
  constructor
  · rfl
  · decide

/-- Claim C6 (amended): every aggregated entry has a non-empty vendor; every
record surviving normalization has a non-empty vendor and *non-zero* (not
necessarily positive) spend; and a row whose extracted vendor is empty or
whose extracted spend is `0` is dropped — inserting it anywhere leaves the
aggregated output unchanged, regardless of its other fields. -/
theorem C6_drop_rule :
    (∀ data : List ExcelRow, ∀ e ∈ groupByVendor data, e.vendor ≠ "") ∧
    (∀ data : List ExcelRow,
      ∀ r ∈ (data.map normalizeExcelRow).filter (fun r => decide (¬ droppedRec r)),
        r.vendor ≠ "" ∧ r.spend ≠ 0) ∧
    (∀ pre post : List ExcelRow, ∀ row : ExcelRow,
      droppedRec (normalizeExcelRow row) →
        groupByVendor (pre ++ row :: post) = groupByVendor (pre ++ post)) := by
  refine ⟨?_, ?_, ?_⟩
  · intro data e he
    rw [groupByVendor, groupRecords_eq_groupSpec] at he
    exact groupSpec_vendor_ne _ _ _ he
  · intro data r hr
    rw [List.mem_filter] at hr
    have hd := of_decide_eq_true hr.2
    unfold droppedRec at hd
    push_neg at hd
    exact hd
  · intro pre post row hdrop
    rw [groupByVendor, groupByVendor, List.map_append, List.map_cons, List.map_append]
    exact groupRecords_ignores_dropped _ hdrop _ _

/-- A decorative row: populated spend but empty vendor. -/
def emptyVendorRow : ExcelRow := [("vendor", .str ""), ("spend", .num 7)]

/-- Witness for claim C6's amended theorem: inserting the empty-vendor row
does not change the aggregate. -/
theorem C6_witness :
    groupByVendor [emptyVendorRow, [("vendor", .str "Other"), ("spend", .num 10)]] =
      groupByVendor [[("vendor", .str "Other"), ("spend", .num 10)]] :=
  C6_drop_rule.2.2 [] [[("vendor", .str "Other"), ("spend", .num 10)]] emptyVendorRow (by decide)

/-- Claim C7 counterexample: on a tie between `';'` and `','` the detector
returns `';'` (the first delimiter to exceed the running maximum), not the
claimed default `','`. -/
theorem C7_counterexample :
    delimCount "a;b,c" ';' = delimCount "a;b,c" ',' ∧
    detectCsvDelimiter "a;b,c" = ';' ∧ ';' ≠ ',' := by decide

/-- Claim C7 (amended): delimiter detection counts `';'`, `','` and tab over
the first 3 lines and returns the delimiter with the strictly highest count,
ties broken in favour of the earlier delimiter in the order `';'`, `','`,
tab — so `','` is returned when all counts are zero (e.g. an empty file) or
when `','` beats `';'` and is not beaten by tab, but a `';'`/`','` tie goes
to `';'`.  The text `"a;b;c\n1;2;3\n4;5;6"` is parsed with delimiter `';'`
into exactly 2 data rows of 3 fields each. -/
theorem C7_delimiter_detection (text : String) :
    (detectCsvDelimiter text =
      if delimCount text '\t' > delimCount text ';' ∧ delimCount text '\t' > delimCount text ','
        then '\t'
      else if 0 < delimCount text ';' ∧ delimCount text ',' ≤ delimCount text ';' then ';'
      else ',') ∧
    parseCsvFile "a;b;c\n1;2;3\n4;5;6" =
      [[("a", "1"), ("b", "2"), ("c", "3")], [("a", "4"), ("b", "5"), ("c", "6")]] := by
  constructor
  · simp only [detectCsvDelimiter, List.foldl]
    split_ifs <;> first | rfl | (exfalso; omega)
  · decide

/-- Modelled from the spec: all characters of `t` are decimal digits (`\d`). -/
def AllDigits (t : String) : Prop := ∀ c ∈ t.data, c.isDigit = true

/-- Modelled from the spec: a decomposition witnessing the regex
`^\d+,\d{2,3}$` — `s` is a non-empty digit string, one comma, and a 2- or
3-digit string. -/
def EuroParts (a b s : String) : Prop :=
  s = a ++ "," ++ b ∧ a ≠ "" ∧ AllDigits a ∧ (b.length = 2 ∨ b.length = 3) ∧ AllDigits b

/-- Modelled from the spec: `s` matches `^\d+,\d{2,3}$`. -/
def EuroPattern (s : String) : Prop := ∃ a b, EuroParts a b s

theorem takeWhile_all_append {p : Char → Bool} (l1 l2 : List Char) (x : Char)
    (h1 : ∀ c ∈ l1, p c = true) (hx : p x = false) :
    (l1 ++ x :: l2).takeWhile p = l1 ∧ (l1 ++ x :: l2).dropWhile p = x :: l2 := by
  induction l1 with
  | nil => simp [List.takeWhile_cons, List.dropWhile_cons, hx]
  | cons c cs ih =>
    have hc : p c = true := h1 c (List.mem_cons_self _ _)
    have ih' := ih (fun d hd => h1 d (List.mem_cons_of_mem _ hd))
    simp [List.takeWhile_cons, List.dropWhile_cons, hc, ih'.1, ih'.2]

theorem replaceFirst_skip (y : Char) (l1 l2 : List Char) (x : Char)
    (h1 : ∀ c ∈ l1, c ≠ x) :
    replaceFirstChar x y (l1 ++ x :: l2) = l1 ++ y :: l2 := by
  induction l1 with
  | nil => simp [replaceFirstChar]
  | cons c cs ih =>
    have hc : c ≠ x := h1 c (List.mem_cons_self _ _)
    simp [replaceFirstChar, hc, ih (fun d hd => h1 d (List.mem_cons_of_mem _ hd))]

theorem data_append_mid (a b m : String) :
    (a ++ m ++ b).data = a.data ++ m.data ++ b.data := by
  simp [String.data_append]

theorem euroParts_convert {a b s : String} (h : EuroParts a b s) :
    euroMatch s.data = true ∧ convertEuropeanDecimals s = a ++ "." ++ b := by
  obtain ⟨hs, ha, hda, hlb, hdb⟩ := h
  have hadata : a.data ≠ [] := fun hnil => ha (String.ext (by rw [hnil]))
  have hdata : s.data = a.data ++ ',' :: b.data := by
    rw [hs, data_append_mid]
    show a.data ++ [','] ++ b.data = a.data ++ ',' :: b.data
    simp
  have hcomma : Char.isDigit ',' = false := by decide
  have htd := takeWhile_all_append a.data b.data ',' hda hcomma
  have h1 : a.data.isEmpty = false := by
    cases hd : a.data with
    | nil => exact absurd hd hadata
    | cons x xs => rfl
  have hmatch : euroMatch s.data = true := by
    rw [hdata]
    simp only [euroMatch, htd.1, htd.2]
    simp only [h1, Bool.not_false, Bool.true_and, beq_self_eq_true, Bool.and_eq_true,
      List.all_eq_true, Bool.or_eq_true, beq_iff_eq]
    refine ⟨hdb, ?_⟩
    rcases hlb with h2 | h2
    · exact Or.inl h2
    · exact Or.inr h2
  refine ⟨hmatch, ?_⟩
  have hne : s ≠ "" := by
    intro h0
    rw [h0] at hdata
    exact absurd hdata.symm (by simp)
  rw [convertEuropeanDecimals, if_neg hne, if_pos hmatch]
  have hrep : replaceFirstChar ',' '.' s.data = a.data ++ '.' :: b.data := by
    rw [hdata]
    refine replaceFirst_skip '.' a.data b.data ',' ?_
    intro c hc heq
    have hd := hda c hc
    rw [heq] at hd
    exact absurd hd (by decide)
  have hgoal : (a ++ "." ++ b).data = a.data ++ '.' :: b.data := by
    rw [data_append_mid]
    show a.data ++ ['.'] ++ b.data = a.data ++ '.' :: b.data
    simp
  calc jsReplaceFirst ',' '.' s = String.mk (replaceFirstChar ',' '.' s.data) := rfl
    _ = String.mk ((a ++ "." ++ b).data) := by rw [hrep, hgoal]
    _ = a ++ "." ++ b := rfl

theorem euroMatch_pattern {s : String} (h : euroMatch s.data = true) : EuroPattern s := by
  have hsplit := List.takeWhile_append_dropWhile Char.isDigit s.data
  unfold euroMatch at h
  cases hr : s.data.dropWhile Char.isDigit with
  | nil => rw [hr] at h; simp at h
  | cons c tail =>
    rw [hr] at h
    simp only [Bool.and_eq_true, Bool.not_eq_true', beq_iff_eq,
      List.all_eq_true, Bool.or_eq_true] at h
    obtain ⟨⟨⟨hds, hc⟩, htail⟩, hlen⟩ := h
    have hsd : s.data = s.data.takeWhile Char.isDigit ++ ',' :: tail := by
      conv_lhs => rw [← hsplit]
      rw [hr, hc]
    refine ⟨String.mk (s.data.takeWhile Char.isDigit), String.mk tail, ?_, ?_, ?_, ?_, ?_⟩
    · apply String.ext
      rw [data_append_mid]
      show s.data = s.data.takeWhile Char.isDigit ++ [','] ++ tail
      conv_lhs => rw [hsd]
      simp
    · intro h0
      have h0' : s.data.takeWhile Char.isDigit = [] := congrArg String.data h0
      rw [h0'] at hds
      simp at hds
    · intro ch hch
      exact List.mem_takeWhile_imp hch
    · rcases hlen with h2 | h2
      · exact Or.inl h2
      · exact Or.inr h2
    · intro ch hch
      exact htail ch hch

theorem euroMatch_iff (s : String) : euroMatch s.data = true ↔ EuroPattern s :=
  ⟨euroMatch_pattern, fun h => by
    obtain ⟨a, b, hab⟩ := h
    exact (euroParts_convert hab).1⟩

/-- Claim C8: `convertEuropeanDecimals` replaces the comma with a dot exactly
when the cell value matches `^\d+,\d{2,3}$` — a matching value `a ++ "," ++ b`
becomes `a ++ "." ++ b` (so `"0,514"` becomes `"0.514"`), and every
non-matching value is returned unchanged. -/
theorem C8_european_decimals (s a b : String) :
    (EuroParts a b s → convertEuropeanDecimals s = a ++ "." ++ b) ∧
    (¬ EuroPattern s → convertEuropeanDecimals s = s) ∧
    convertEuropeanDecimals "0,514" = "0.514" := by
  refine ⟨fun h => (euroParts_convert h).2, ?_, by decide⟩
  intro hnp
  by_cases h0 : s = ""
  · rw [convertEuropeanDecimals, if_pos h0]
  · rw [convertEuropeanDecimals, if_neg h0]
    cases hm : euroMatch s.data with
    | false => simp
    | true => exact absurd (euroMatch_pattern hm) hnp

/-- Witness for claim C8 at the concrete tokens `"0,514"` (matching, comma
re-interpreted) and `"1,2345"` (comma followed by four digits, unchanged). -/
theorem C8_witness :
    convertEuropeanDecimals "0,514" = "0" ++ "." ++ "514" ∧
    convertEuropeanDecimals "1,2345" = "1,2345" :=
  ⟨(C8_european_decimals "0,514" "0" "514").1
      (by unfold EuroParts AllDigits; refine ⟨by decide, by decide, by decide, by decide, by decide⟩),
   (C8_european_decimals "1,2345" "" "").2.1 (fun hp => by
      rw [← euroMatch_iff] at hp
      exact absurd hp (by decide))⟩

/-- Claim C9 counterexample: when the primary decoding yields zero rows (or a
degenerate single-column result) and the fallback decoding also yields zero
rows, `parseExcelFile` resolves with the primary (empty or degenerate)
result — it does not reject with a parsing error. -/
theorem C9_counterexample :
    parseExcelFile (.ok ([], [])) = .ok ([] : List ExcelRow) ∧
    parseExcelFile (.ok ([[("A", CellValue.str "x")]], [])) =
      .ok [[("A", CellValue.str "x")]] := by
  constructor <;> rfl

/-- Claim C9 (amended): `parseExcelFile` rejects exactly when the workbook
decoder throws; whenever decoding succeeds it resolves with `parseExcelRows`,
and in particular when the primary result is empty/degenerate and the
fallback yields zero rows it silently resolves with the primary result
(an empty row list for empty primary decoding). -/
theorem C9_parse_fallback (primary alternative : List ExcelRow) (e : String) :
    parseExcelFile (.ok (primary, alternative)) = .ok (parseExcelRows primary alternative) ∧
    ((primary.length = 0 ∨ (primary.headD []).length < 2) → alternative = [] →
      parseExcelRows primary alternative = primary) ∧
    parseExcelFile (.error e) = .error e := by
  refine ⟨rfl, ?_, rfl⟩
  intro hdeg halt
  rw [parseExcelRows, if_pos hdeg, halt, if_neg (by simp)]

/-- Witness for claim C9's amended theorem: empty decodings resolve empty. -/
theorem C9_witness : parseExcelRows [] [] = [] :=
  (C9_parse_fallback [] [] "").2.1 (Or.inl rfl) rfl

/-- Claim C10: after `storeAnalysis st now fileId …`, the stored record under
`fileId` is a fresh one with empty `conversationHistory` (and empty
`normalizedData`), and `fileId` becomes the current file — so when `fileId`
was already present the entire prior record, including any chat messages
previously appended for it, is discarded. -/
theorem C10_store_analysis (st : ConversationStore) (now : ℕ) (fileId fileName : String)
    (rawData : List ExcelRow) (analysisResults : List SpendAnalysis)
    (summaryMetrics : SummaryMetrics) :
    mapGet (storeAnalysis st now fileId fileName rawData analysisResults
        summaryMetrics).conversations fileId =
      some { fileId := fileId, fileName := fileName, uploadTimestamp := now,
             rawData := rawData, normalizedData := [], analysisResults := analysisResults,
             summaryMetrics := summaryMetrics, conversationHistory := [] } ∧
    (storeAnalysis st now fileId fileName rawData analysisResults
        summaryMetrics).currentFileId = some fileId ∧
    getConversationHistory (storeAnalysis st now fileId fileName rawData analysisResults
        summaryMetrics) fileId = [] := by
  have h1 : mapGet (storeAnalysis st now fileId fileName rawData analysisResults
      summaryMetrics).conversations fileId =
      some { fileId := fileId, fileName := fileName, uploadTimestamp := now,
             rawData := rawData, normalizedData := [], analysisResults := analysisResults,
             summaryMetrics := summaryMetrics, conversationHistory := [] } := by
    simp only [storeAnalysis]
    exact mapGet_mapSet_self _ _ _
  refine ⟨h1, rfl, ?_⟩
  simp only [getConversationHistory, h1]

/-- Number of calls that acquired the worker role (each increments the
stage-pair counter exactly once, at its `performAnalysis` invocation). -/
def workerCount (r0 r1 : CallRole) : ℕ :=
  (if r0 = .worker then 1 else 0) + (if r1 = .worker then 1 else 0)

/-- Invariant of the de-duplication system: roles are assigned exactly at the
check step, the registration slot is occupied exactly while a worker's
request is in flight, at most one request is in flight, the pair counter
equals the number of workers, and a waiter implies the other call is the
worker whose promise it awaits. -/
def DedupInv (s : DedupState) : Prop :=
  ((s.t0.phase = .notStarted ∨ s.t0.phase = .hashing) ↔ s.t0.role = .unassigned) ∧
  ((s.t1.phase = .notStarted ∨ s.t1.phase = .hashing) ↔ s.t1.role = .unassigned) ∧
  (s.t0.phase = .inFlightRemote → s.t0.role = .worker) ∧
  (s.t1.phase = .inFlightRemote → s.t1.role = .worker) ∧
  (s.registered = true ↔ (s.t0.phase = .inFlightRemote ∨ s.t1.phase = .inFlightRemote)) ∧
  ¬ (s.t0.phase = .inFlightRemote ∧ s.t1.phase = .inFlightRemote) ∧
  s.pairsSent = workerCount s.t0.role s.t1.role ∧
  (s.t0.role = .waiter → s.t1.role = .worker) ∧
  (s.t1.role = .waiter → s.t0.role = .worker)

instance : DecidablePred DedupInv := fun s => by
  unfold DedupInv workerCount
  infer_instance

theorem dedupInv_step (s : DedupState) (i : Bool) (h : DedupInv s) :
    DedupInv (dedupStep s i) := by
  obtain ⟨⟨p0, r0⟩, ⟨p1, r1⟩, reg, pairs⟩ := s
  have hpairs : pairs = workerCount r0 r1 := h.2.2.2.2.2.2.1
  subst hpairs
  cases p0 <;> cases p1 <;> cases r0 <;> cases r1 <;> cases reg <;> cases i <;>
    revert h <;> decide

theorem dedupRun_inv (sched : List Bool) : DedupInv (dedupRun sched) := by
  suffices h : ∀ s, DedupInv s → DedupInv (List.foldl dedupStep s sched) from
    h dedupInit (by decide)
  induction sched with
  | nil => exact fun s hs => hs
  | cons x xs ih => exact fun s hs => ih _ (dedupInv_step s x hs)

/-- Claim C3 counterexample: both calls start concurrently; the second call
is invoked while the first call's request is in flight, but its hash
computation only completes after the first request has finished and been
deregistered, so it registers a second request — a complete concurrent
execution of two identical calls with **two** outbound stage-request pairs. -/
theorem C3_counterexample :
    (dedupRun [false, false, true, false, true, true]).t0.phase = .finished ∧
    (dedupRun [false, false, true, false, true, true]).t1.phase = .finished ∧
    (dedupRun [false, false, true, false, true, true]).pairsSent = 2 := by decide

/-- Claim C3 (amended): under every event-loop interleaving of two calls of
`analyzeExcelData` with identical input, at most one remote request is in
flight at any time; any call whose cache-map check happens while a request
for the hash is pending becomes a waiter on the in-flight promise and issues
no stage requests, so if either call ends up a waiter exactly one outbound
pair of stage requests was issued; the total never exceeds two pairs.  Two
concurrent calls can issue two pairs only when the second call's hashing
completes after the first request already finished (see counterexample). -/
theorem C3_inflight_dedup (sched : List Bool) :
    ¬ ((dedupRun sched).t0.phase = .inFlightRemote ∧
        (dedupRun sched).t1.phase = .inFlightRemote) ∧
    ((dedupRun sched).t0.role = .waiter ∨ (dedupRun sched).t1.role = .waiter →
      (dedupRun sched).pairsSent = 1) ∧
    (dedupRun sched).pairsSent ≤ 2 := by
  obtain ⟨h1, h2, h3, h4, h5, h6, h7, h8, h9⟩ := dedupRun_inv sched
  refine ⟨h6, ?_, ?_⟩
  · intro hw
    rw [h7]
    rcases hw with hw | hw
    · have hv := h8 hw
      rw [hw, hv]
      rfl
    · have hv := h9 hw
      rw [hw, hv]
      rfl
  · rw [h7]
    unfold workerCount
    split_ifs <;> omega

/-- Witness for claim C3's amended theorem: a schedule in which the second
call checks while the first request is pending — it becomes a waiter and the
run issues exactly one stage-request pair. -/
theorem C3_witness :
    (dedupRun [false, false, true, true, false, true]).t1.role = CallRole.waiter ∧
    (dedupRun [false, false, true, true, false, true]).pairsSent = 1 :=
  ⟨by decide,
   (C3_inflight_dedup [false, false, true, true, false, true]).2.1 (Or.inr (by decide))⟩

/-- The alternate `openai.ts` revision of the pipeline returns the stage-2
response's `summary` verbatim (it validates only its presence and shape), in
contrast with `processWithNormalAPIs`, which regenerates the summary locally. -/
theorem performAnalysis_summary_verbatim (env : OpenAIEnv) (rows : List ExcelRow)
    (r : RawAnalysisResponse) (h : performAnalysis env rows = .ok r) :
    jsonGet env.stage2Body "summary" = some r.summary := by
  unfold performAnalysis at h
  split at h
  · exact absurd h (by simp)
  · split at h
    · exact absurd h (by simp)
    · split at h
      · exact absurd h (by simp)
      · split at h
        · split at h
          · split at h
            · rw [Except.ok.injEq] at h
              subst h
              assumption
            · exact absurd h (by simp)
          · exact absurd h (by simp)
        · exact absurd h (by simp)
